import Mathlib

/-!
Verification development for the `holiday-sorter` script: a shallow
embedding in Lean 4 of its pure core (the streaming XML record decoder,
the call-handler classifier, the relationship resolver, and the main
gating condition), together with theorems settling the specified
properties.

Modelling conventions, matched to the Python source:
* a decoded record is a finite map from field name to field value, where
  a field value may be the Python `None` (an XML child with no text);
  we model it as an association list `Record` with dict semantics
  (a later binding for the same key overwrites an earlier one, hence
  `alookup` prefers the last binding);
* Python code that can raise (`d[k]` on a missing key, `.lower()` or
  `.strip()` on `None`, `", ".join` over a list containing `None`)
  is embedded in `Except String`, the error string naming the Python
  exception that would be raised;
* `d.get(k)` and `d.get(k, default)` never raise and are embedded as
  total functions on `Option`.
-/

/-- A Python field value: `some s` is the string `s`, `none` is Python `None`. -/
abbrev FieldVal := Option String

/-- A decoded record: an association list with dict semantics. -/
abbrev Record := List (String × FieldVal)

/-- Dict lookup on an association list: the LAST binding of a key wins,
matching a Python dict built by successive insertions/comprehension. -/
def alookup {α β : Type} [BEq α] : List (α × β) → α → Option β
  | [], _ => none
  | p :: rest, k =>
    match alookup rest k with
    | some v => some v
    | none => if p.1 == k then some p.2 else none

namespace Record

/-- `r.find? k`: `some v` when field `k` is present with value `v`
(which may itself be the null `none`), `none` when the field is absent. -/
def find? (r : Record) (k : String) : Option FieldVal :=
  alookup r k

/-- Python `r.get(k)`: the stored value, or `None` when absent. -/
def get (r : Record) (k : String) : FieldVal :=
  (r.find? k).getD none

/-- Python `r.get(k, d)` with a string default: the stored value (possibly
null) when the field is present, otherwise the default string. -/
def getD (r : Record) (k : String) (d : String) : FieldVal :=
  match r.find? k with
  | some v => v
  | none => some d

/-- Python `r[k]`: raises `KeyError` when the field is absent. -/
def item (r : Record) (k : String) : Except String FieldVal :=
  match r.find? k with
  | some v => .ok v
  | none => .error ("KeyError: " ++ k)

end Record

/-- Python `str.lower` (ASCII, which covers the configuration data the
script handles), defined on the character list so it evaluates by `rfl`. -/
def strLower (s : String) : String :=
  ⟨s.data.map Char.toLower⟩

/-- An ASCII whitespace character, as stripped by Python `str.strip`. -/
def isPySpace (c : Char) : Bool :=
  c == ' ' || c == '\t' || c == '\n' || c == '\r'

/-- Python `str.strip`: drop leading and trailing whitespace. -/
def strTrim (s : String) : String :=
  ⟨((s.data.dropWhile isPySpace).reverse.dropWhile isPySpace).reverse⟩

/-- Python `str.endswith`: suffix test on the character list. -/
def strEndsWith (s suffix : String) : Bool :=
  suffix.data.isSuffixOf s.data

/-- Python truthiness of a field value: `None` and `""` are falsy. -/
def truthy : FieldVal → Bool
  | some s => !(s == "")
  | none => false

/-- Python `v.lower()`: raises `AttributeError` on `None`. -/
def pyLower : FieldVal → Except String String
  | some s => .ok (strLower s)
  | none => .error "AttributeError: NoneType has no attribute lower"

/-- Python `v.strip().lower()`: raises `AttributeError` on `None`. -/
def pyStripLower : FieldVal → Except String String
  | some s => .ok (strLower (strTrim s))
  | none => .error "AttributeError: NoneType has no attribute strip"

/-- Python `str(v)` as used by an f-string: `None` renders as `"None"`. -/
def pyStr : FieldVal → String
  | some s => s
  | none => "None"

/-- Python `sep.join(l)`: raises `TypeError` when an element is `None`. -/
def pyJoin (sep : String) : List FieldVal → Except String String
  | [] => .ok ""
  | none :: _ => .error "TypeError: sequence item: expected str instance, NoneType found"
  | some s :: rest =>
    match pyJoin sep rest with
    | .error e => .error e
    | .ok r => .ok (if rest.isEmpty then s else s ++ sep ++ r)

/-- The index of schedule-set members: schedule-set id → fetched member
records, as built by `get_all_schedule_set_members` (line 134). -/
abbrev MembersMap := List (String × List Record)

/-- One output row of the resolver (line 163/184):
`CallHandlerName` is `handler.get("DisplayName", "Unnamed Handler")`
(a field value, since a present-but-null `DisplayName` flows through),
`Schedule` is always a string in the source. -/
structure ResolvedRow where
  CallHandlerName : FieldVal
  Schedule : String
deriving DecidableEq, Repr

/-- Line 154: `schedule_map = {schedule['ObjectId']: schedule['DisplayName']
for schedule in schedules}` — raises `KeyError` when a schedule record
lacks `ObjectId` or `DisplayName`; later entries overwrite earlier ones
(our `alookup` prefers the last binding). -/
def buildScheduleMap : List Record → Except String (List (FieldVal × FieldVal))
  | [] => .ok []
  | s :: rest =>
    match s.item "ObjectId" with
    | .error e => .error e
    | .ok oid =>
      match s.item "DisplayName" with
      | .error e => .error e
      | .ok dn =>
        match buildScheduleMap rest with
        | .error e => .error e
        | .ok m => .ok ((oid, dn) :: m)

/-- Line 175: `schedule_map.get(member["ScheduleObjectId"], "Unknown Schedule")`
after the `KeyError`-prone subscript has succeeded. -/
def scheduleMapGet (smap : List (FieldVal × FieldVal)) (k : FieldVal) : FieldVal :=
  match alookup smap k with
  | some v => v
  | none => some "Unknown Schedule"

/-- Lines 174-178: the list comprehension that filters out members whose
`Exclude` lowercases to `"true"` and maps the survivors through the
schedule map. Evaluated left to right; for each member the filter
condition runs first (`member.get("Exclude", "false").lower()`, which
raises on a present-but-null `Exclude`), then the `member["ScheduleObjectId"]`
subscript (which raises when the field is absent). -/
def resolveMembers (smap : List (FieldVal × FieldVal)) : List Record → Except String (List FieldVal)
  | [] => .ok []
  | m :: rest =>
    match pyLower (m.getD "Exclude" "false") with
    | .error e => .error e
    | .ok ex =>
      if ex == "true" then
        resolveMembers smap rest
      else
        match m.item "ScheduleObjectId" with
        | .error e => .error e
        | .ok sid =>
          match resolveMembers smap rest with
          | .error e => .error e
          | .ok rest_r => .ok (scheduleMapGet smap sid :: rest_r)

/-- Lines 157-187: the body of the per-handler loop of `resolve_schedules`. -/
def resolveHandler (smap : List (FieldVal × FieldVal)) (mmap : MembersMap)
    (handler : Record) : Except String ResolvedRow :=
  let name := handler.getD "DisplayName" "Unnamed Handler"
  match handler.get "ScheduleSetObjectId" with
  | none => .ok ⟨name, "No Schedule"⟩
  | some ssid =>
    if ssid == "" then
      .ok ⟨name, "No Schedule"⟩
    else
      let members := (alookup mmap ssid).getD []
      if members.isEmpty then
        .ok ⟨name, "No Schedule"⟩
      else
        match resolveMembers smap members with
        | .error e => .error e
        | .ok resolved =>
          if resolved.isEmpty then
            .ok ⟨name, "No Schedule"⟩
          else
            match pyJoin ", " resolved with
            | .error e => .error e
            | .ok joined => .ok ⟨name, joined⟩

/-- The per-handler loop of `resolve_schedules`, in input order. -/
def mapResolve (smap : List (FieldVal × FieldVal)) (mmap : MembersMap) :
    List Record → Except String (List ResolvedRow)
  | [] => .ok []
  | h :: rest =>
    match resolveHandler smap mmap h with
    | .error e => .error e
    | .ok row =>
      match mapResolve smap mmap rest with
      | .error e => .error e
      | .ok rows => .ok (row :: rows)

set_option linter.unusedVariables false in
/-- Lines 149-190: `resolve_schedules(call_handlers, schedules,
schedule_sets, schedule_set_members_map)`. The `schedule_sets` parameter
is unused in the source (the caller passes `[]`). -/
def resolve_schedules (call_handlers schedules schedule_sets : List Record)
    (schedule_set_members_map : MembersMap) : Except String (List ResolvedRow) :=
  match buildScheduleMap schedules with
  | .error e => .error e
  | .ok smap => mapResolve smap schedule_set_members_map call_handlers

/-!
The streaming XML decoder (`parse_large_xml`, lines 30-48).

`ET.iterparse(data, events=('end',))` fires one end-event per element of
the parsed document, in post-order (all descendants before their parent,
siblings left to right). We model the well-formed document as the element
tree `XElem` and the loop of lines 38-45 as a post-order traversal that
threads the mutation performed by `elem.clear()`: a yielded element has
its text and children erased, which a later end-event of an enclosing
element can observe.
-/

/-- A parsed XML element: tag, text content (`none` when absent), and the
list of immediate child elements in document order. -/
inductive XElem : Type where
  | mk (tag : String) (text : Option String) (children : List XElem)

/-- The element's tag, as `ElementTree` renders it (a namespaced tag looks
like an URI between braces followed by the local name). -/
def XElem.tag : XElem → String
  | .mk t _ _ => t

/-- The element's text content; `none` models Python `None`. -/
def XElem.text : XElem → Option String
  | .mk _ t _ => t

/-- The element's immediate children. -/
def XElem.children : XElem → List XElem
  | .mk _ _ c => c

/-- Python `tag.split(...)[-1]` on the closing-brace character (line 42):
the part of the tag after the last closing brace, i.e. the tag with any
namespace part stripped. -/
def localName (tag : String) : String :=
  ⟨(tag.data.reverse.takeWhile (fun c => !(c == '\x7d'))).reverse⟩

mutual

/-- The loop of lines 38-45 restricted to the subtree of one element:
returns the records yielded while processing that subtree (in event
order) together with the element as the rest of the traversal sees it
afterwards (cleared when it matched, its children updated otherwise). -/
def processElem (name : String) : XElem → List Record × XElem
  | .mk tag text children =>
    let pc := processList name children
    if strEndsWith tag name then
      (pc.1 ++ [pc.2.map (fun c => (localName c.tag, c.text))], .mk tag none [])
    else
      (pc.1, .mk tag text pc.2)

/-- The loop of lines 38-45 over a sibling list, left to right. -/
def processList (name : String) : List XElem → List Record × List XElem
  | [] => ([], [])
  | e :: rest =>
    let pe := processElem name e
    let pr := processList name rest
    (pe.1 ++ pr.1, pe.2 :: pr.2)

end

/-- Lines 30-48: `parse_large_xml(xml_data, element_name)` on a
well-formed document, as the list the callers build from the generator:
one record per end-event whose tag satisfies
`elem.tag.endswith(element_name)` (line 39), each record mapping the
namespace-stripped tag of each immediate child to its text (line 42). -/
def parse_large_xml (doc : XElem) (element_name : String) : List Record :=
  (processElem element_name doc).1

mutual

/-- Number of elements in a subtree whose tag ends with `name`. -/
def countMatches (name : String) : XElem → Nat
  | .mk tag _ children =>
    countMatchesList name children + (if strEndsWith tag name then 1 else 0)

/-- Number of elements in a forest whose tag ends with `name`. -/
def countMatchesList (name : String) : List XElem → Nat
  | [] => 0
  | e :: rest => countMatches name e + countMatchesList name rest

end

/-!
The handler classifier: the pure core of `get_call_handlers`
(lines 104-126), i.e. what the spec calls `classify`.
-/

/-- Line 108: the display names that mark a system handler. -/
def systemNames : List String :=
  ["auto attendant", "opening greeting", "operator"]

/-- Lines 106-108: the selection predicate of the comprehension, an `or`
evaluated left to right with Python short-circuiting:
`handler.get("Undeletable", "false").lower() == "true"` (raises on a
present-but-null `Undeletable`), `or handler.get("DtmfAccessId")`
(truthiness), `or handler.get("DisplayName", "").strip().lower() in [...]`
(raises on a present-but-null `DisplayName`). -/
def isSystemHandler (h : Record) : Except String Bool :=
  match pyLower (h.getD "Undeletable" "false") with
  | .error e => .error e
  | .ok und =>
    if und == "true" then
      .ok true
    else if truthy (h.get "DtmfAccessId") then
      .ok true
    else
      match pyStripLower (h.getD "DisplayName" "") with
      | .error e => .error e
      | .ok dn => .ok (systemNames.contains dn)

/-- Lines 104-109: the filtering comprehension, keeping selected handlers
in input order. -/
def selectHandlers : List Record → Except String (List Record)
  | [] => .ok []
  | h :: rest =>
    match isSystemHandler h with
    | .error e => .error e
    | .ok b =>
      match selectHandlers rest with
      | .error e => .error e
      | .ok r => .ok (if b then h :: r else r)

/-- Line 115: the composite deduplication key
`f"{handler.get('DisplayName','').strip().lower()}|{handler.get('DtmfAccessId','')}"`.
A present-but-null `DtmfAccessId` renders as the f-string text `"None"`. -/
def compositeKey (h : Record) : Except String String :=
  match pyStripLower (h.getD "DisplayName" "") with
  | .error e => .error e
  | .ok dn => .ok (dn ++ "|" ++ pyStr (h.getD "DtmfAccessId" ""))

/-- Lines 112-123: the deduplication loop over the selected handlers.
`seen` is the key set of the `unique_handlers` dict built so far; the
first component of the result is `list(unique_handlers.values())` (first
occurrence per key, insertion order), the second collects the dropped
duplicates, each of which line 120 reports with `logger.warning`. -/
def dedupGo (seen : List String) : List Record → Except String (List Record × List Record)
  | [] => .ok ([], [])
  | h :: rest =>
    match compositeKey h with
    | .error e => .error e
    | .ok k =>
      if seen.contains k then
        match dedupGo seen rest with
        | .error e => .error e
        | .ok p => .ok (p.1, h :: p.2)
      else
        match dedupGo (k :: seen) rest with
        | .error e => .error e
        | .ok p => .ok (h :: p.1, p.2)

/-- Lines 111-126: deduplication starting from an empty dict. -/
def dedupHandlers (hs : List Record) : Except String (List Record × List Record) :=
  dedupGo [] hs

/-- Lines 104-126: the classifier — selection then deduplication; returns
the kept handlers and the dropped (warned-about) duplicates. -/
def classify (hs : List Record) : Except String (List Record × List Record) :=
  match selectHandlers hs with
  | .error e => .error e
  | .ok sel => dedupHandlers sel

/-- Lines 200-219: the `__main__` gating condition
`if call_handlers and schedules:` — the join and the report run exactly
when this Python truthiness test holds, i.e. when both lists are
non-empty. -/
def main_runs_join (call_handlers schedules : List Record) : Bool :=
  !call_handlers.isEmpty && !schedules.isEmpty

/-!
Spec-side definitions, written from the words of the claims (clearly
separated from the source embedding above); the claim theorems relate
the two. Also the well-formedness predicates delimiting the inputs on
which the fallible code paths succeed.
-/

/-- Claim wording: the classifier selection predicate — `Undeletable`
equals `"true"` case-insensitively (absent defaults to not selected);
or `DtmfAccessId` present and non-empty; or `DisplayName`, trimmed and
lowercased, one of the system names. -/
def specSelect (h : Record) : Bool :=
  (match h.find? "Undeletable" with
   | some (some v) => strLower v == "true"
   | _ => false) ||
  (match h.find? "DtmfAccessId" with
   | some (some v) => !(v == "")
   | _ => false) ||
  (match h.find? "DisplayName" with
   | some (some v) => systemNames.contains (strLower (strTrim v))
   | _ => false)

/-- Claim wording: the composite dedup key — trimmed lowercased
`DisplayName`, then a bar, then the `DtmfAccessId` or the empty string
when it is absent. -/
def specKey (h : Record) : String :=
  (match h.find? "DisplayName" with
   | some (some v) => strLower (strTrim v)
   | _ => "") ++ "|" ++
  (match h.find? "DtmfAccessId" with
   | some (some v) => v
   | _ => "")

/-- Claim wording: iterate in order, keep the first handler seen under
each key, drop (and report) every later handler with the same key —
the first component is the kept sequence, the second the reported
duplicates. -/
def specDedupGo (seen : List String) : List Record → List Record × List Record
  | [] => ([], [])
  | h :: rest =>
    if seen.contains (specKey h) then
      let p := specDedupGo seen rest
      (p.1, h :: p.2)
    else
      let p := specDedupGo (specKey h :: seen) rest
      (h :: p.1, p.2)

/-- Claim wording: deduplication of a handler sequence, no key seen yet. -/
def specDedup (hs : List Record) : List Record × List Record :=
  specDedupGo [] hs

/-- Claim wording: a member whose `Exclude` value equals `"true"`
case-insensitively. -/
def specExcluded (m : Record) : Bool :=
  match m.find? "Exclude" with
  | some (some ex) => strLower ex == "true"
  | _ => false

/-- Claim wording: drop every excluded member, preserving order. -/
def specSurvivors (members : List Record) : List Record :=
  members.filter (fun m => !(specExcluded m))

/-- Claim wording: map each surviving member's `ScheduleObjectId` through
the schedule lookup, substituting the literal `"Unknown Schedule"` when
the id is not found (or is not bound to a display name). -/
def specResolvedNames (smap : List (FieldVal × FieldVal)) (members : List Record) :
    List String :=
  (specSurvivors members).map (fun m =>
    match alookup smap (m.get "ScheduleObjectId") with
    | some (some dn) => dn
    | _ => "Unknown Schedule")

/-- Plain string join with a separator (the shape of Python `sep.join`
restricted to actual strings). -/
def strJoin (sep : String) : List String → String
  | [] => ""
  | [s] => s
  | s :: rest => s ++ sep ++ strJoin sep rest

/-- Claim wording: the resolved `Schedule` string for a non-empty member
list — `"No Schedule"` when every member was excluded, otherwise the
resolved names joined with a comma and a space, in member order. -/
def specSchedule (smap : List (FieldVal × FieldVal)) (members : List Record) : String :=
  let resolved := specResolvedNames smap members
  if resolved.isEmpty then "No Schedule" else strJoin ", " resolved

/-- A schedule record on which line 154 does not raise and whose display
name is an actual string (so joining resolved names cannot raise):
`ObjectId` present, `DisplayName` present and non-null. -/
def scheduleWF (s : Record) : Bool :=
  (s.find? "ObjectId").isSome &&
    (match s.find? "DisplayName" with
     | some (some _) => true
     | _ => false)

/-- A member record on which lines 174-178 do not raise: its `Exclude`
value is not null, and when it is not excluded its `ScheduleObjectId`
field is present. -/
def memberWF (m : Record) : Bool :=
  match m.getD "Exclude" "false" with
  | none => false
  | some ex => strLower ex == "true" || (m.find? "ScheduleObjectId").isSome

/-!
Helper lemmas shared by the claim theorems.
-/

theorem alookup_mem_values {α β : Type} [BEq α] (l : List (α × β)) (k : α) (v : β)
    (h : alookup l k = some v) : v ∈ l.map Prod.snd := by
  induction l with
  | nil => simp [alookup] at h
  | cons p rest ih =>
    rw [alookup] at h
    split at h
    · next w hw =>
        injection h with h
        subst h
        simp only [List.map_cons, List.mem_cons]
        exact Or.inr (ih hw)
    · next hw =>
        split at h
        · injection h with h
          subst h
          simp
        · cases h

theorem pyJoin_map_some (sep : String) (l : List String) :
    pyJoin sep (l.map some) = .ok (strJoin sep l) := by
  induction l with
  | nil => rfl
  | cons s rest ih =>
    cases rest with
    | nil => rfl
    | cons t ts =>
      simp only [List.map] at ih ⊢
      rw [pyJoin, ih]
      simp [strJoin]

theorem buildScheduleMap_ok (ss : List Record) (h : ∀ s ∈ ss, scheduleWF s = true) :
    ∃ m, buildScheduleMap ss = .ok m ∧ ∀ v ∈ m.map Prod.snd, v.isSome = true := by
  induction ss with
  | nil => exact ⟨[], rfl, by simp⟩
  | cons s rest ih =>
    have hs := h s (by simp)
    obtain ⟨m, hm, hv⟩ := ih (fun x hx => h x (by simp [hx]))
    simp only [scheduleWF, Bool.and_eq_true] at hs
    obtain ⟨h1, h2⟩ := hs
    obtain ⟨oid, hoid⟩ := Option.isSome_iff_exists.mp h1
    cases hdn : Record.find? s "DisplayName" with
    | none => rw [hdn] at h2; simp at h2
    | some dv =>
      cases dv with
      | none => rw [hdn] at h2; simp at h2
      | some dn =>
        refine ⟨(oid, some dn) :: m, ?_, ?_⟩
        · simp [buildScheduleMap, Record.item, hoid, hdn, hm]
        · intro v hv'
          simp only [List.map, List.mem_cons] at hv'
          rcases hv' with h' | h'
          · subst h'; rfl
          · exact hv v (by simpa using h')

theorem scheduleMapGet_eq (smap : List (FieldVal × FieldVal)) (k : FieldVal)
    (h : ∀ v ∈ smap.map Prod.snd, v.isSome = true) :
    scheduleMapGet smap k =
      some (match alookup smap k with
            | some (some dn) => dn
            | _ => "Unknown Schedule") := by
  cases ha : alookup smap k with
  | none => simp [scheduleMapGet, ha]
  | some v =>
    have hv := h v (alookup_mem_values _ _ _ ha)
    cases v with
    | none => simp at hv
    | some dn => simp [scheduleMapGet, ha]

theorem resolveMembers_eq (smap : List (FieldVal × FieldVal)) (members : List Record)
    (h : ∀ m ∈ members, memberWF m = true) :
    resolveMembers smap members =
      .ok ((specSurvivors members).map
        (fun m => scheduleMapGet smap (m.get "ScheduleObjectId"))) := by
  induction members with
  | nil => rfl
  | cons m rest ih =>
    have hm := h m (by simp)
    have ihr := ih (fun x hx => h x (by simp [hx]))
    simp only [memberWF] at hm
    cases hf : Record.find? m "Exclude" with
    | none =>
      have hgd : Record.getD m "Exclude" "false" = some "false" := by
        simp [Record.getD, hf]
      simp only [hgd] at hm
      rw [show (strLower "false" == "true") = false from rfl, Bool.false_or] at hm
      obtain ⟨sid, hsid⟩ := Option.isSome_iff_exists.mp hm
      have hexc : specExcluded m = false := by simp [specExcluded, hf]
      simp +decide [resolveMembers, hgd, pyLower, specSurvivors, hexc,
        Record.item, hsid, Record.get, ihr]
    | some ev =>
      cases ev with
      | none =>
        have hgd : Record.getD m "Exclude" "false" = none := by
          simp [Record.getD, hf]
        simp only [hgd] at hm
        exact absurd hm (by decide)
      | some ex =>
        have hgd : Record.getD m "Exclude" "false" = some ex := by
          simp [Record.getD, hf]
        simp only [hgd] at hm
        have hexc : specExcluded m = (strLower ex == "true") := by
          simp [specExcluded, hf]
        cases ht : (strLower ex == "true") with
        | true =>
          simp [resolveMembers, hgd, pyLower, ht, specSurvivors, hexc, ihr]
        | false =>
          rw [ht, Bool.false_or] at hm
          obtain ⟨sid, hsid⟩ := Option.isSome_iff_exists.mp hm
          simp [resolveMembers, hgd, pyLower, ht, specSurvivors, hexc,
            Record.item, hsid, Record.get, ihr]

theorem resolved_eq_map_some (smap : List (FieldVal × FieldVal)) (members : List Record)
    (hsv : ∀ v ∈ smap.map Prod.snd, v.isSome = true) :
    (specSurvivors members).map (fun m => scheduleMapGet smap (m.get "ScheduleObjectId")) =
      (specResolvedNames smap members).map some := by
  simp only [specResolvedNames]
  induction specSurvivors members with
  | nil => rfl
  | cons a l ih =>
    simp only [List.map_cons, ih]
    rw [scheduleMapGet_eq _ _ hsv]

theorem resolveHandler_name (smap : List (FieldVal × FieldVal)) (mmap : MembersMap)
    (h : Record) (row : ResolvedRow) (hok : resolveHandler smap mmap h = .ok row) :
    row.CallHandlerName = Record.getD h "DisplayName" "Unnamed Handler" := by
  simp only [resolveHandler] at hok
  split at hok
  · injection hok with hok; subst hok; rfl
  · split at hok
    · injection hok with hok; subst hok; rfl
    · split at hok
      · injection hok with hok; subst hok; rfl
      · split at hok
        · cases hok
        · split at hok
          · injection hok with hok; subst hok; rfl
          · split at hok
            · cases hok
            · injection hok with hok; subst hok; rfl

theorem resolveHandler_no_schedule (smap : List (FieldVal × FieldVal)) (mmap : MembersMap)
    (h : Record)
    (hcond : Record.get h "ScheduleSetObjectId" = none ∨
             Record.get h "ScheduleSetObjectId" = some "" ∨
             ∃ s, Record.get h "ScheduleSetObjectId" = some s ∧
                  (alookup mmap s).getD [] = []) :
    resolveHandler smap mmap h =
      .ok ⟨Record.getD h "DisplayName" "Unnamed Handler", "No Schedule"⟩ := by
  rcases hcond with hc | hc | ⟨s, hc, hempty⟩
  · simp [resolveHandler, hc]
  · simp [resolveHandler, hc]
  · by_cases hs : s = ""
    · subst hs; simp [resolveHandler, hc]
    · have hbeq : (s == "") = false := by simpa using hs
      simp [resolveHandler, hc, hbeq, hempty]

theorem resolveHandler_ok_formula (smap : List (FieldVal × FieldVal)) (mmap : MembersMap)
    (h : Record) (ssid : String) (members : List Record)
    (hget : Record.get h "ScheduleSetObjectId" = some ssid)
    (hne : ssid ≠ "")
    (hal : alookup mmap ssid = some members)
    (hmne : members ≠ [])
    (hwf : ∀ m ∈ members, memberWF m = true)
    (hsv : ∀ v ∈ smap.map Prod.snd, v.isSome = true) :
    resolveHandler smap mmap h =
      .ok ⟨Record.getD h "DisplayName" "Unnamed Handler", specSchedule smap members⟩ := by
  have hres := resolveMembers_eq smap members hwf
  rw [resolved_eq_map_some smap members hsv] at hres
  have hbeq : (ssid == "") = false := by simpa using hne
  have hie : members.isEmpty = false := by
    cases members with
    | nil => exact absurd rfl hmne
    | cons a l => rfl
  cases hnames : specResolvedNames smap members with
  | nil =>
    rw [hnames] at hres
    simp [resolveHandler, hget, hbeq, hal, hie, hres, specSchedule, hnames]
  | cons n ns =>
    rw [hnames] at hres
    have hj := pyJoin_map_some ", " (n :: ns)
    simp only [List.map_cons] at hj hres
    simp [resolveHandler, hget, hbeq, hal, hie, hres, specSchedule, hnames, hj]

theorem resolveHandler_isOk (smap : List (FieldVal × FieldVal)) (mmap : MembersMap)
    (h : Record)
    (hsv : ∀ v ∈ smap.map Prod.snd, v.isSome = true)
    (hmm : ∀ ms ∈ mmap.map Prod.snd, ∀ m ∈ ms, memberWF m = true) :
    ∃ row, resolveHandler smap mmap h = .ok row := by
  cases hget : Record.get h "ScheduleSetObjectId" with
  | none => exact ⟨_, resolveHandler_no_schedule smap mmap h (Or.inl hget)⟩
  | some ssid =>
    by_cases hne : ssid = ""
    · subst hne
      exact ⟨_, resolveHandler_no_schedule smap mmap h (Or.inr (Or.inl hget))⟩
    · cases hal : alookup mmap ssid with
      | none =>
        exact ⟨_, resolveHandler_no_schedule smap mmap h
          (Or.inr (Or.inr ⟨ssid, hget, by simp [hal]⟩))⟩
      | some ms =>
        by_cases hmne : ms = []
        · subst hmne
          exact ⟨_, resolveHandler_no_schedule smap mmap h
            (Or.inr (Or.inr ⟨ssid, hget, by simp [hal]⟩))⟩
        · have hwf := hmm ms (alookup_mem_values _ _ _ hal)
          exact ⟨_, resolveHandler_ok_formula smap mmap h ssid ms hget hne hal hmne hwf hsv⟩

theorem mapResolve_ok_of (smap : List (FieldVal × FieldVal)) (mmap : MembersMap)
    (hs : List Record)
    (h : ∀ x ∈ hs, ∃ row, resolveHandler smap mmap x = .ok row) :
    ∃ rows, mapResolve smap mmap hs = .ok rows := by
  induction hs with
  | nil => exact ⟨[], rfl⟩
  | cons a as ih =>
    obtain ⟨row, hrow⟩ := h a (by simp)
    obtain ⟨rows, hrows⟩ := ih (fun x hx => h x (by simp [hx]))
    exact ⟨row :: rows, by simp [mapResolve, hrow, hrows]⟩

theorem mapResolve_length (smap : List (FieldVal × FieldVal)) (mmap : MembersMap)
    (hs : List Record) (rows : List ResolvedRow)
    (h : mapResolve smap mmap hs = .ok rows) : rows.length = hs.length := by
  induction hs generalizing rows with
  | nil =>
    rw [mapResolve] at h
    injection h with h
    subst h
    rfl
  | cons a as ih =>
    rw [mapResolve] at h
    split at h
    · cases h
    · split at h
      · cases h
      · next rows' hrows =>
        injection h with h
        subst h
        simp [ih rows' hrows]

theorem mapResolve_get (smap : List (FieldVal × FieldVal)) (mmap : MembersMap)
    (hs : List Record) (rows : List ResolvedRow)
    (h : mapResolve smap mmap hs = .ok rows) :
    ∀ (i : Nat) (x : Record), hs[i]? = some x →
      rows[i]? = (resolveHandler smap mmap x).toOption := by
  induction hs generalizing rows with
  | nil => intro i x hx; simp at hx
  | cons a as ih =>
    rw [mapResolve] at h
    split at h
    · cases h
    · next row hrow =>
      split at h
      · cases h
      · next rows' hrows =>
        injection h with h
        subst h
        intro i x hx
        cases i with
        | zero =>
          simp only [List.getElem?_cons_zero, Option.some.injEq] at hx
          subst hx
          simp [hrow, Except.toOption]
        | succ j =>
          simp only [List.getElem?_cons_succ] at hx ⊢
          exact ih rows' hrows j x hx

theorem resolve_schedules_ok_iff (hs ss sets : List Record) (mmap : MembersMap)
    (rows : List ResolvedRow) :
    resolve_schedules hs ss sets mmap = .ok rows ↔
      ∃ smap, buildScheduleMap ss = .ok smap ∧ mapResolve smap mmap hs = .ok rows := by
  unfold resolve_schedules
  cases hb : buildScheduleMap ss with
  | error e => simp
  | ok smap => simp

theorem selectHandlers_mem_true (hs sel : List Record)
    (h : selectHandlers hs = .ok sel) : ∀ x ∈ sel, isSystemHandler x = .ok true := by
  induction hs generalizing sel with
  | nil =>
    rw [selectHandlers] at h
    injection h with h
    subst h
    intro x hx
    simp at hx
  | cons a as ih =>
    rw [selectHandlers] at h
    split at h
    · cases h
    · next b hb =>
      split at h
      · cases h
      · next r hr =>
        injection h with h
        subst h
        intro x hx
        cases b with
        | true =>
          simp only [if_true] at hx
          rcases List.mem_cons.mp hx with hx | hx
          · subst hx; exact hb
          · exact ih r hr x hx
        | false =>
          simp only [Bool.false_eq_true, if_false] at hx
          exact ih r hr x hx

theorem selectHandlers_sublist (hs sel : List Record)
    (h : selectHandlers hs = .ok sel) : sel.Sublist hs := by
  induction hs generalizing sel with
  | nil =>
    rw [selectHandlers] at h
    injection h with h
    subst h
    exact List.Sublist.refl []
  | cons a as ih =>
    rw [selectHandlers] at h
    split at h
    · cases h
    · next b hb =>
      split at h
      · cases h
      · next r hr =>
        injection h with h
        subst h
        cases b with
        | true =>
          simpa using List.Sublist.cons₂ a (ih r hr)
        | false =>
          simpa using List.Sublist.cons a (ih r hr)

theorem selectHandlers_all_true (hs : List Record)
    (h : ∀ x ∈ hs, isSystemHandler x = .ok true) :
    selectHandlers hs = .ok hs := by
  induction hs with
  | nil => rfl
  | cons a as ih =>
    simp [selectHandlers, h a (by simp), ih (fun x hx => h x (by simp [hx]))]

theorem dedupGo_sublist (seen : List String) (hs u d : List Record)
    (h : dedupGo seen hs = .ok (u, d)) : u.Sublist hs := by
  induction hs generalizing seen u d with
  | nil =>
    simp only [dedupGo, Except.ok.injEq, Prod.mk.injEq] at h
    obtain ⟨h1, h2⟩ := h
    subst h1
    exact List.Sublist.refl []
  | cons a as ih =>
    rw [dedupGo] at h
    split at h
    · cases h
    · next k hk =>
      split at h
      · split at h
        · cases h
        · next p hp =>
          obtain ⟨u', d'⟩ := p
          injection h with h
          rw [Prod.mk.injEq] at h
          obtain ⟨h1, h2⟩ := h
          subst h1
          exact List.Sublist.cons a (ih seen u' d' hp)
      · split at h
        · cases h
        · next p hp =>
          obtain ⟨u', d'⟩ := p
          injection h with h
          rw [Prod.mk.injEq] at h
          obtain ⟨h1, h2⟩ := h
          subst h1
          exact List.Sublist.cons₂ a (ih (k :: seen) u' d' hp)

theorem dedupGo_self (seen : List String) (hs u d : List Record)
    (h : dedupGo seen hs = .ok (u, d)) : dedupGo seen u = .ok (u, []) := by
  induction hs generalizing seen u d with
  | nil =>
    simp only [dedupGo, Except.ok.injEq, Prod.mk.injEq] at h
    obtain ⟨h1, h2⟩ := h
    subst h1
    rfl
  | cons a as ih =>
    rw [dedupGo] at h
    split at h
    · cases h
    · next k hk =>
      split at h
      · split at h
        · cases h
        · next p hp =>
          obtain ⟨u', d'⟩ := p
          injection h with h
          rw [Prod.mk.injEq] at h
          obtain ⟨h1, h2⟩ := h
          subst h1
          exact ih seen u' d' hp
      · next hcont =>
        split at h
        · cases h
        · next p hp =>
          obtain ⟨u', d'⟩ := p
          injection h with h
          rw [Prod.mk.injEq] at h
          obtain ⟨h1, h2⟩ := h
          subst h1
          have hrec := ih (k :: seen) u' d' hp
          have hmem : ¬ k ∈ seen := by simpa using hcont
          simp [dedupGo, hk, hmem, hrec]

theorem compositeKey_eq_specKey (h : Record)
    (hD : Record.find? h "DisplayName" ≠ some none)
    (hT : Record.find? h "DtmfAccessId" ≠ some none) :
    compositeKey h = .ok (specKey h) := by
  cases hfd : Record.find? h "DisplayName" with
  | none =>
    cases hft : Record.find? h "DtmfAccessId" with
    | none =>
      simp +decide [compositeKey, specKey, Record.getD, hfd, hft, pyStripLower, pyStr]
    | some tv =>
      cases tv with
      | none => exact absurd hft hT
      | some t =>
        simp +decide [compositeKey, specKey, Record.getD, hfd, hft, pyStripLower,
          pyStr, show strLower (strTrim "") = "" from rfl]
  | some dv =>
    cases dv with
    | none => exact absurd hfd hD
    | some dn =>
      cases hft : Record.find? h "DtmfAccessId" with
      | none =>
        simp [compositeKey, specKey, Record.getD, hfd, hft, pyStripLower, pyStr]
      | some tv =>
        cases tv with
        | none => exact absurd hft hT
        | some t =>
          simp [compositeKey, specKey, Record.getD, hfd, hft, pyStripLower, pyStr]

theorem dedupGo_eq_spec (seen : List String) (hs : List Record)
    (h : ∀ x ∈ hs, Record.find? x "DisplayName" ≠ some none ∧
                   Record.find? x "DtmfAccessId" ≠ some none) :
    dedupGo seen hs = .ok (specDedupGo seen hs) := by
  induction hs generalizing seen with
  | nil => rfl
  | cons a as ih =>
    obtain ⟨hD, hT⟩ := h a (by simp)
    have hk := compositeKey_eq_specKey a hD hT
    have hrest : ∀ x ∈ as, Record.find? x "DisplayName" ≠ some none ∧
        Record.find? x "DtmfAccessId" ≠ some none :=
      fun x hx => h x (by simp [hx])
    by_cases hcont : seen.contains (specKey a) = true
    · have hmem : specKey a ∈ seen := by simpa using hcont
      simp [dedupGo, specDedupGo, hk, hmem, ih seen hrest]
    · have hmem : ¬ specKey a ∈ seen := by simpa using hcont
      simp [dedupGo, specDedupGo, hk, hmem, ih (specKey a :: seen) hrest]

theorem truthy_get_dtmf (h : Record) :
    truthy (Record.get h "DtmfAccessId") =
      (match Record.find? h "DtmfAccessId" with
       | some (some v) => !(v == "")
       | _ => false) := by
  cases hft : Record.find? h "DtmfAccessId" with
  | none => simp [truthy, Record.get, hft]
  | some w => cases w <;> simp [truthy, Record.get, hft]

theorem ite_ok_or (b c : Bool) :
    (if b = true then Except.ok true else (Except.ok c : Except String Bool)) =
      Except.ok (b || c) := by
  cases b <;> simp

theorem ite_eq_ok_or (a b : String) (c : Bool) :
    (if a = b then Except.ok true else (Except.ok c : Except String Bool)) =
      Except.ok ((a == b) || c) := by
  by_cases hab : a = b <;> simp [hab]

theorem isSystemHandler_eq_spec (h : Record)
    (hU : Record.find? h "Undeletable" ≠ some none)
    (hD : Record.find? h "DisplayName" ≠ some none) :
    isSystemHandler h = .ok (specSelect h) := by
  have hdt := truthy_get_dtmf h
  cases hfu : Record.find? h "Undeletable" with
  | none =>
    cases hfd : Record.find? h "DisplayName" with
    | none =>
      simp +decide [isSystemHandler, specSelect, Record.getD, hfu, hfd,
        pyLower, pyStripLower, hdt, ite_ok_or]
    | some dv =>
      cases dv with
      | none => exact absurd hfd hD
      | some dn =>
        simp +decide [isSystemHandler, specSelect, Record.getD, hfu, hfd,
          pyLower, pyStripLower, hdt, ite_ok_or]
  | some uv =>
    cases uv with
    | none => exact absurd hfu hU
    | some u =>
      cases hfd : Record.find? h "DisplayName" with
      | none =>
        simp +decide [isSystemHandler, specSelect, Record.getD, hfu, hfd,
          pyLower, pyStripLower, hdt, ite_ok_or, ite_eq_ok_or]
      | some dv =>
        cases dv with
        | none => exact absurd hfd hD
        | some dn =>
          simp [isSystemHandler, specSelect, Record.getD, hfu, hfd,
            pyLower, pyStripLower, hdt, ite_ok_or, ite_eq_ok_or, Bool.or_assoc]

mutual

theorem processElem_count (name : String) : ∀ e : XElem,
    (processElem name e).1.length = countMatches name e
  | .mk tag text children => by
    have hc := processList_count name children
    rw [processElem, countMatches]
    by_cases hEnd : strEndsWith tag name = true
    · simp [hEnd, hc]
    · simp [hEnd, hc]

theorem processList_count (name : String) : ∀ l : List XElem,
    (processList name l).1.length = countMatchesList name l
  | [] => rfl
  | e :: rest => by
    have h1 := processElem_count name e
    have h2 := processList_count name rest
    rw [processList, countMatchesList]
    simp [h1, h2]

end

mutual

theorem processElem_of_count_zero (name : String) : ∀ e : XElem,
    countMatches name e = 0 → processElem name e = ([], e)
  | .mk tag text children => by
    intro h
    rw [countMatches] at h
    cases hEnd : strEndsWith tag name with
    | true => rw [hEnd] at h; simp at h
    | false =>
      rw [hEnd] at h
      simp only [Bool.false_eq_true, if_false, Nat.add_zero] at h
      have hl := processList_of_count_zero name children h
      simp [processElem, hEnd, hl]

theorem processList_of_count_zero (name : String) : ∀ l : List XElem,
    countMatchesList name l = 0 → processList name l = ([], l)
  | [] => by intro h; rfl
  | e :: rest => by
    intro h
    rw [countMatchesList] at h
    have h1 : countMatches name e = 0 := by omega
    have h2 : countMatchesList name rest = 0 := by omega
    simp [processList, processElem_of_count_zero name e h1,
      processList_of_count_zero name rest h2]

end

theorem countMatchesList_eq_zero (name : String) (l : List XElem)
    (h : ∀ c ∈ l, countMatches name c = 0) : countMatchesList name l = 0 := by
  induction l with
  | nil => rfl
  | cons e rest ih =>
    rw [countMatchesList, h e (by simp), ih (fun c hc => h c (by simp [hc]))]

theorem processElem_snd_tag (name : String) : ∀ e : XElem,
    (processElem name e).2.tag = e.tag
  | .mk tag text children => by
    rw [processElem]
    by_cases hEnd : strEndsWith tag name = true
    · simp [hEnd, XElem.tag]
    · simp [hEnd, XElem.tag]

theorem processElem_snd_text (name : String) : ∀ e : XElem,
    (processElem name e).2.text =
      if strEndsWith e.tag name = true then none else e.text
  | .mk tag text children => by
    rw [processElem]
    by_cases hEnd : strEndsWith tag name = true
    · simp [hEnd, XElem.tag, XElem.text]
    · simp [hEnd, XElem.tag, XElem.text]

theorem processList_fst_join (name : String) (l : List XElem) :
    (processList name l).1 = (l.map (fun c => parse_large_xml c name)).flatten := by
  induction l with
  | nil => rfl
  | cons e rest ih =>
    simp [processList, parse_large_xml, ih, List.flatten]

theorem processList_snd_record (name : String) (l : List XElem) :
    (processList name l).2.map (fun c => (localName c.tag, c.text)) =
      l.map (fun c => (localName c.tag,
        if strEndsWith c.tag name = true then none else c.text)) := by
  induction l with
  | nil => rfl
  | cons e rest ih =>
    simp [processList, ih, processElem_snd_tag, processElem_snd_text]

/-!
Claim theorems.
-/

/-- Claim C1, counterexample to the claim as stated: the resolver is not
total. With one handler and a schedule record that lacks `ObjectId`,
line 154 raises `KeyError` before any row is produced, so the resolver
does not return one `ResolvedRow` per input handler for every input. -/
theorem C1_counterexample :
    resolve_schedules [[("DisplayName", some "Operator")]]
      [[("DisplayName", some "X")]] [] [] =
      Except.error "KeyError: ObjectId" := by rfl

/-- Claim C1, amended: whenever the resolver returns (raises no
exception), it returns exactly one `ResolvedRow` per input handler, in
handler input order — the output has the same length as the handler
sequence and row `i` is the one the per-handler loop body produces from
handler `i`. -/
theorem C1_resolver_one_row_per_handler
    (call_handlers schedules schedule_sets : List Record) (mmap : MembersMap)
    (rows : List ResolvedRow)
    (hok : resolve_schedules call_handlers schedules schedule_sets mmap = .ok rows) :
    rows.length = call_handlers.length ∧
      ∃ smap, buildScheduleMap schedules = .ok smap ∧
        ∀ (i : Nat) (h : Record), call_handlers[i]? = some h →
          rows[i]? = (resolveHandler smap mmap h).toOption := by
  obtain ⟨smap, hb, hm⟩ :=
    (resolve_schedules_ok_iff call_handlers schedules schedule_sets mmap rows).mp hok
  exact ⟨mapResolve_length _ _ _ _ hm, smap, hb, mapResolve_get _ _ _ _ hm⟩

/-- Claim C1, witness: the amended theorem applied to a concrete run with
one handler and no schedules. -/
theorem C1_witness :
    ([⟨some "Operator", "No Schedule"⟩] : List ResolvedRow).length =
        [[("DisplayName", some "Operator")]].length ∧
      ∃ smap, buildScheduleMap [] = .ok smap ∧
        ∀ (i : Nat) (h : Record), [[("DisplayName", some "Operator")]][i]? = some h →
          ([⟨some "Operator", "No Schedule"⟩] : List ResolvedRow)[i]? =
            (resolveHandler smap [] h).toOption :=
  C1_resolver_one_row_per_handler [[("DisplayName", some "Operator")]] [] [] []
    [⟨some "Operator", "No Schedule"⟩] (by rfl)

/-- Claim C2, counterexample to the claim as stated: a member record whose
`Exclude` field is present with a null value makes line 177 call
`.lower()` on `None`, raising `AttributeError`; the resolver does abort
instead of degrading to a sentinel. -/
theorem C2_counterexample :
    resolve_schedules [[("ScheduleSetObjectId", some "S")]] [] []
      [("S", [[("Exclude", (none : FieldVal))]])] =
      Except.error "AttributeError: NoneType has no attribute lower" := by rfl

/-- Claim C2, amended: the resolver raises no exception provided every
schedule record has an `ObjectId` field and a non-null `DisplayName`
field, and every member record in the index has a non-null `Exclude`
value (when present) and, when not excluded, a `ScheduleObjectId` field;
under those conditions missing or unknown references degrade to the
sentinel strings rather than aborting. Without them it can raise
(`KeyError` on a schedule lacking `ObjectId` or `DisplayName`, `KeyError`
on a non-excluded member lacking `ScheduleObjectId`, `AttributeError` on
a null `Exclude`). -/
theorem C2_resolver_no_exception_when_wellformed
    (call_handlers schedules schedule_sets : List Record) (mmap : MembersMap)
    (hss : ∀ s ∈ schedules, scheduleWF s = true)
    (hmm : ∀ ms ∈ mmap.map Prod.snd, ∀ m ∈ ms, memberWF m = true) :
    ∃ rows, resolve_schedules call_handlers schedules schedule_sets mmap = .ok rows := by
  obtain ⟨smap, hb, hv⟩ := buildScheduleMap_ok schedules hss
  obtain ⟨rows, hrows⟩ := mapResolve_ok_of smap mmap call_handlers
    (fun x _ => resolveHandler_isOk smap mmap x hv hmm)
  exact ⟨rows, (resolve_schedules_ok_iff call_handlers schedules schedule_sets
    mmap rows).mpr ⟨smap, hb, hrows⟩⟩

/-- Claim C2, witness: the amended theorem applied to a concrete
well-formed run (one handler, one schedule, one member index entry). -/
theorem C2_witness :
    ∃ rows, resolve_schedules
      [[("DisplayName", some "Operator"), ("ScheduleSetObjectId", some "SS1")]]
      [[("ObjectId", some "SC1"), ("DisplayName", some "Business Hours")]] []
      [("SS1", [[("ScheduleObjectId", some "SC1"), ("Exclude", some "false")],
                [("ScheduleObjectId", some "SC2"), ("Exclude", some "true")]])] =
      .ok rows :=
  C2_resolver_no_exception_when_wellformed
    [[("DisplayName", some "Operator"), ("ScheduleSetObjectId", some "SS1")]]
    [[("ObjectId", some "SC1"), ("DisplayName", some "Business Hours")]] []
    [("SS1", [[("ScheduleObjectId", some "SC1"), ("Exclude", some "false")],
              [("ScheduleObjectId", some "SC2"), ("Exclude", some "true")]])]
    (by decide) (by decide)

/-- Claim C4, counterexample to the claim as stated: with a non-empty
handler list and an empty schedule list, the `__main__` gate
`if call_handlers and schedules:` is false, so the join and report are
skipped even though only one of the two fetches was empty. -/
theorem C4_counterexample :
    main_runs_join [[("DisplayName", some "Operator")]] [] = false ∧
      [[("DisplayName", some "Operator")]] ≠ ([] : List Record) := by
  exact ⟨rfl, by decide⟩

/-- Claim C4, amended: the run proceeds to the join and report stages
exactly when both the handler list and the schedule list are non-empty;
an empty result from either fetch (not only from both) skips them. -/
theorem C4_join_runs_iff_both_nonempty (call_handlers schedules : List Record) :
    main_runs_join call_handlers schedules = true ↔
      call_handlers ≠ [] ∧ schedules ≠ [] := by
  cases call_handlers <;> cases schedules <;> simp [main_runs_join]

/-- Claim C10: a handler whose `DisplayName` field is absent still yields
its row, whose `CallHandlerName` is the literal default
`"Unnamed Handler"` from line 158. -/
theorem C10_unnamed_handler_default
    (call_handlers schedules schedule_sets : List Record) (mmap : MembersMap)
    (rows : List ResolvedRow) (i : Nat) (h : Record)
    (hok : resolve_schedules call_handlers schedules schedule_sets mmap = .ok rows)
    (hi : call_handlers[i]? = some h)
    (hname : Record.find? h "DisplayName" = none) :
    ∃ row, rows[i]? = some row ∧ row.CallHandlerName = some "Unnamed Handler" := by
  obtain ⟨smap, hb, hm⟩ :=
    (resolve_schedules_ok_iff call_handlers schedules schedule_sets mmap rows).mp hok
  have hg := mapResolve_get _ _ _ _ hm i h hi
  have hlen := mapResolve_length _ _ _ _ hm
  have hi' : i < call_handlers.length := by
    by_contra hlt
    rw [List.getElem?_eq_none (by omega)] at hi
    cases hi
  have hir : i < rows.length := by omega
  obtain ⟨row, hrow⟩ : ∃ row, rows[i]? = some row :=
    ⟨rows[i], List.getElem?_eq_getElem hir⟩
  refine ⟨row, hrow, ?_⟩
  rw [hrow] at hg
  cases hres : resolveHandler smap mmap h with
  | error e => rw [hres] at hg; simp [Except.toOption] at hg
  | ok row' =>
    rw [hres] at hg
    simp only [Except.toOption, Option.some.injEq] at hg
    rw [hg, resolveHandler_name smap mmap h row' hres, Record.getD, hname]

/-- Claim C10, witness: a handler record with no fields at all; the run
succeeds and its row carries the default name. -/
theorem C10_witness :
    ∃ row, ([⟨some "Unnamed Handler", "No Schedule"⟩] : List ResolvedRow)[0]? = some row ∧
      row.CallHandlerName = some "Unnamed Handler" :=
  C10_unnamed_handler_default [[]] [] [] []
    [⟨some "Unnamed Handler", "No Schedule"⟩] 0 [] (by rfl) (by rfl) (by rfl)

/-- Claim C5: for a handler with a non-empty `ScheduleSetObjectId` whose
member list in the index is non-empty, the resolved `Schedule` string is
obtained by dropping every member whose `Exclude` equals `"true"`
case-insensitively, mapping each survivor's `ScheduleObjectId` through
the schedule lookup with `"Unknown Schedule"` substituted on a missed
lookup, and joining the results with a comma and a space in member
order; `"No Schedule"` exactly when every member was excluded. Stated
under the well-formedness hypotheses that make the loop body return
(non-null `Exclude` values, `ScheduleObjectId` present on survivors,
non-null schedule display names). -/
theorem C5_resolved_schedule_formula (smap : List (FieldVal × FieldVal))
    (mmap : MembersMap) (h : Record) (ssid : String) (members : List Record)
    (hget : Record.get h "ScheduleSetObjectId" = some ssid)
    (hne : ssid ≠ "")
    (hal : alookup mmap ssid = some members)
    (hmne : members ≠ [])
    (hwf : ∀ m ∈ members, memberWF m = true)
    (hsv : ∀ v ∈ smap.map Prod.snd, v.isSome = true) :
    resolveHandler smap mmap h =
      .ok ⟨Record.getD h "DisplayName" "Unnamed Handler", specSchedule smap members⟩ :=
  resolveHandler_ok_formula smap mmap h ssid members hget hne hal hmne hwf hsv

/-- Claim C5, witness: one included member resolving to a display name
and one case-insensitively excluded member. -/
theorem C5_witness :
    resolveHandler [(some "SC1", some "Business Hours")]
      [("SS1", [[("ScheduleObjectId", some "SC1"), ("Exclude", some "false")],
                [("ScheduleObjectId", some "SC2"), ("Exclude", some "TRUE")]])]
      [("DisplayName", some "Operator"), ("ScheduleSetObjectId", some "SS1")] =
      .ok ⟨Record.getD [("DisplayName", some "Operator"),
             ("ScheduleSetObjectId", some "SS1")] "DisplayName" "Unnamed Handler",
           specSchedule [(some "SC1", some "Business Hours")]
             [[("ScheduleObjectId", some "SC1"), ("Exclude", some "false")],
              [("ScheduleObjectId", some "SC2"), ("Exclude", some "TRUE")]]⟩ :=
  C5_resolved_schedule_formula [(some "SC1", some "Business Hours")]
    [("SS1", [[("ScheduleObjectId", some "SC1"), ("Exclude", some "false")],
              [("ScheduleObjectId", some "SC2"), ("Exclude", some "TRUE")]])]
    [("DisplayName", some "Operator"), ("ScheduleSetObjectId", some "SS1")]
    "SS1"
    [[("ScheduleObjectId", some "SC1"), ("Exclude", some "false")],
     [("ScheduleObjectId", some "SC2"), ("Exclude", some "TRUE")]]
    (by rfl) (by decide) (by rfl) (by decide) (by decide) (by decide)

/-- Claim C6: a handler whose `ScheduleSetObjectId` is absent or empty,
or whose id is not in the member index, or maps to an empty member
sequence, yields a row whose `Schedule` is exactly `"No Schedule"`. -/
theorem C6_no_schedule_sentinel (smap : List (FieldVal × FieldVal))
    (mmap : MembersMap) (h : Record)
    (hcond : Record.get h "ScheduleSetObjectId" = none ∨
             Record.get h "ScheduleSetObjectId" = some "" ∨
             ∃ s, Record.get h "ScheduleSetObjectId" = some s ∧
                  (alookup mmap s).getD [] = []) :
    resolveHandler smap mmap h =
      .ok ⟨Record.getD h "DisplayName" "Unnamed Handler", "No Schedule"⟩ :=
  resolveHandler_no_schedule smap mmap h hcond

/-- Claim C6, witness: a handler whose `ScheduleSetObjectId` is not
present in the member index. -/
theorem C6_witness :
    resolveHandler [] [("SS1", [[("ScheduleObjectId", some "SC1")]])]
      [("DisplayName", some "Greeting"), ("ScheduleSetObjectId", some "SS2")] =
      .ok ⟨Record.getD [("DisplayName", some "Greeting"),
             ("ScheduleSetObjectId", some "SS2")] "DisplayName" "Unnamed Handler",
           "No Schedule"⟩ :=
  C6_no_schedule_sentinel [] [("SS1", [[("ScheduleObjectId", some "SC1")]])]
    [("DisplayName", some "Greeting"), ("ScheduleSetObjectId", some "SS2")]
    (Or.inr (Or.inr ⟨"SS2", by rfl, by rfl⟩))

/-- Claim C7: the classifier selects a handler exactly when `Undeletable`
equals `"true"` case-insensitively (absent defaulting to not selected by
that disjunct), or `DtmfAccessId` is present and non-empty, or
`DisplayName` trimmed and lowercased is one of the three system names.
Stated for handlers whose `Undeletable` and `DisplayName` values are not
null (on a null value lines 106 and 108 raise instead of classifying). -/
theorem C7_selection_predicate (h : Record)
    (hU : Record.find? h "Undeletable" ≠ some none)
    (hD : Record.find? h "DisplayName" ≠ some none) :
    isSystemHandler h = .ok (specSelect h) :=
  isSystemHandler_eq_spec h hU hD

/-- Claim C7, witness: a handler selected only through its display name
(`Undeletable` explicitly `"FALSE"`, no `DtmfAccessId`). -/
theorem C7_witness :
    isSystemHandler [("DisplayName", some " Operator "), ("Undeletable", some "FALSE")] =
      .ok (specSelect [("DisplayName", some " Operator "), ("Undeletable", some "FALSE")]) ∧
    specSelect [("DisplayName", some " Operator "), ("Undeletable", some "FALSE")] = true :=
  ⟨C7_selection_predicate [("DisplayName", some " Operator "), ("Undeletable", some "FALSE")]
      (by decide) (by decide),
   by decide⟩

/-- Claim C8: deduplication of selected handlers uses the composite key
`trim(lower(DisplayName)) ++ bar ++ DtmfAccessId-or-empty`; iterating in
order, the first handler under each key is kept and every later handler
with the same key lands in the dropped list that line 120 reports with a
warning (never silently). Stated for handlers whose `DisplayName` and
`DtmfAccessId` values are not null (a null `DisplayName` raises at
line 115, a null `DtmfAccessId` would render as the f-string text
`"None"` instead of the empty string). -/
theorem C8_dedup_first_wins (hs : List Record)
    (hwf : ∀ x ∈ hs, Record.find? x "DisplayName" ≠ some none ∧
                     Record.find? x "DtmfAccessId" ≠ some none) :
    dedupHandlers hs = .ok (specDedup hs) ∧
      ∀ x ∈ hs, compositeKey x = .ok (specKey x) := by
  constructor
  · exact dedupGo_eq_spec [] hs hwf
  · intro x hx
    obtain ⟨h1, h2⟩ := hwf x hx
    exact compositeKey_eq_specKey x h1 h2

/-- Claim C8, witness: two handlers colliding on the composite key
(same trimmed lowercased name, same extension); the first is kept, the
second is reported as dropped. -/
theorem C8_witness :
    dedupHandlers [[("DisplayName", some "Operator"), ("DtmfAccessId", some "0")],
                   [("DisplayName", some " OPERATOR "), ("DtmfAccessId", some "0")]] =
      .ok (specDedup [[("DisplayName", some "Operator"), ("DtmfAccessId", some "0")],
                      [("DisplayName", some " OPERATOR "), ("DtmfAccessId", some "0")]]) ∧
    ∀ x ∈ [[("DisplayName", some "Operator"), ("DtmfAccessId", some "0")],
           [("DisplayName", some " OPERATOR "), ("DtmfAccessId", some "0")]],
      compositeKey x = .ok (specKey x) :=
  C8_dedup_first_wins
    [[("DisplayName", some "Operator"), ("DtmfAccessId", some "0")],
     [("DisplayName", some " OPERATOR "), ("DtmfAccessId", some "0")]]
    (by decide)

/-- Claim C9: the classifier is order-preserving (its kept output is a
sublist of the input, in input order) and idempotent (applied to its own
kept output it returns that sequence unchanged, dropping nothing). -/
theorem C9_classify_order_preserving_idempotent (hs u d : List Record)
    (h : classify hs = .ok (u, d)) :
    u.Sublist hs ∧ classify u = .ok (u, []) := by
  rw [classify] at h
  cases hsel : selectHandlers hs with
  | error e => rw [hsel] at h; cases h
  | ok sel =>
    rw [hsel] at h
    have hdu : dedupGo [] sel = .ok (u, d) := h
    have hsub : u.Sublist sel := dedupGo_sublist [] sel u d hdu
    have hmem : ∀ x ∈ u, isSystemHandler x = .ok true :=
      fun x hx => selectHandlers_mem_true hs sel hsel x (hsub.subset hx)
    refine ⟨hsub.trans (selectHandlers_sublist hs sel hsel), ?_⟩
    rw [classify, selectHandlers_all_true u hmem]
    exact dedupGo_self [] sel u d hdu

/-- Claim C9, witness: the classifier applied to a list with one kept
handler, one unselected handler and one duplicate. -/
theorem C9_witness :
    ([[("DisplayName", some "Operator")]] : List Record).Sublist
      [[("DisplayName", some "Operator")], [("DisplayName", some "Lobby")],
       [("DisplayName", some "Operator")]] ∧
    classify [[("DisplayName", some "Operator")]] =
      .ok ([[("DisplayName", some "Operator")]], []) :=
  C9_classify_order_preserving_idempotent
    [[("DisplayName", some "Operator")], [("DisplayName", some "Lobby")],
     [("DisplayName", some "Operator")]]
    [[("DisplayName", some "Operator")]]
    [[("DisplayName", some "Operator")]]
    (by rfl)

/-- Claim C3, counterexample to the claim as stated, exhibiting both
failures. First, the decoder matches by `str.endswith`, not by
namespace-stripped equality: an element tagged `XFoo` is decoded for the
requested name `Foo` although its local name `XFoo` differs from `Foo`.
Second, a record does not always map a child's tag to that child's text
content: for a `Foo` element whose child is itself a `Foo` with text
content `"x"`, the child's end-event fires first and line 45 clears it,
so the outer record maps `"Foo"` to null, not to the child's text
`some "x"`. -/
theorem C3_counterexample :
    ((parse_large_xml (XElem.mk "XFoo" none []) "Foo").length = 1 ∧
      localName "XFoo" ≠ "Foo") ∧
    (parse_large_xml (XElem.mk "Foo" none [XElem.mk "Foo" (some "x") []]) "Foo" =
        [[], [("Foo", none)]] ∧
      (XElem.mk "Foo" (some "x") []).text = some "x") := by
  exact ⟨⟨rfl, by decide⟩, ⟨rfl, rfl⟩⟩

/-- Claim C3, amended: the decoder emits one record exactly for each
element whose raw tag ends with the requested name (a suffix match,
which subsumes every element whose namespace-stripped local name equals
the requested name but also matches longer tags sharing the suffix),
records appearing in end-event order (children before their parent);
each emitted record maps the namespace-stripped tag of each immediate
child element to that child's text content — except that a child whose
own tag also suffix-matches the requested name was cleared by the
streaming loop before the parent's record is built and therefore
contributes a null value regardless of its text — with absent text
yielding a null field rather than an error. The second conjunct below
characterizes the full output for every element, with no side
condition: the records of the children's subtrees in order, followed by
this element's record exactly when its tag suffix-matches, each field
read from the original child except for the matched-child null. -/
theorem C3_decoder_suffix_match (name : String) :
    (∀ doc : XElem, (parse_large_xml doc name).length = countMatches name doc) ∧
    (∀ (tag : String) (text : Option String) (children : List XElem),
      parse_large_xml (XElem.mk tag text children) name =
        (children.map (fun c => parse_large_xml c name)).flatten ++
          (if strEndsWith tag name = true
           then [children.map (fun c => (localName c.tag,
                   if strEndsWith c.tag name = true then none else c.text))]
           else [])) := by
  constructor
  · intro doc
    exact processElem_count name doc
  · intro tag text children
    rw [parse_large_xml, processElem]
    by_cases hEnd : strEndsWith tag name = true
    · simp [hEnd, processList_fst_join, processList_snd_record]
    · simp [hEnd, processList_fst_join]

/-- Claim C3, witness: the theorem applied to a namespaced `Foo` element
with a namespaced child carrying text and a plain child with no text;
the record strips the namespace from the child tags and keeps the
absent text as null. -/
theorem C3_witness :
    parse_large_xml
      (XElem.mk "\x7bns\x7dFoo" none
        [XElem.mk "\x7bns\x7dA" (some "1") [], XElem.mk "b" none []]) "Foo" =
      [[("A", some "1"), ("b", none)]] :=
  ((C3_decoder_suffix_match "Foo").2 "\x7bns\x7dFoo" none
      [XElem.mk "\x7bns\x7dA" (some "1") [], XElem.mk "b" none []]).trans (by rfl)
